import Mathlib

/-!
Verification of the gosfs single-file HTTP file server (`main.go`) against its
natural-language specification.  The Go source is shallowly embedded: pure
helpers become Lean functions, the HTTP handlers become explicit state
transformers over a `World` record (response fields, log lines, recorded file
writes, an abstract file system and the shared health value), and Go panics
are represented by an `Except` error outcome.  Machine integers (`int64`) are
modelled by `Int`; all inputs relevant to the claims are far below `2 ^ 63`,
and bounds are stated explicitly where the int64 range matters.  String
primitives from the Go standard library (`strings.Split`, prefix tests,
`strings.TrimPrefix`) are embedded as structurally recursive functions on the
character list of a `String` so that every definition evaluates inside the
kernel.
-/

set_option autoImplicit false

/-- Path separator used by the server (Unix build, as in the repository). -/
def pathSep : Char := '/'

/-- Boolean test that a string ends with the path separator: the last
character of the underlying character list is `'/'`. -/
def endsWithSep (s : String) : Bool := s.data.getLast? == some '/'

/-- Boolean test that a string starts with `'/'` (Go `path.IsAbs` /
`strings.HasPrefix(p, "/")` on the first byte). -/
def startsWithSlash (s : String) : Bool := s.data.head? == some '/'

/-- Splitting a character list at `'/'`, accumulating the current segment in
reverse; embeds Go `strings.Split(p, "/")` as used by path cleaning. -/
def splitSlashAux : List Char → List Char → List String
  | acc, [] => [String.mk acc.reverse]
  | acc, c :: cs =>
    if c = '/' then String.mk acc.reverse :: splitSlashAux [] cs
    else splitSlashAux (c :: acc) cs

/-- Segments of a path string, split at `'/'`. -/
def splitSlash (s : String) : List String := splitSlashAux [] s.data

/-- Prefix test on strings via their character lists
(Go `strings.HasPrefix`). -/
def strHasPfx (p s : String) : Bool := p.data.isPrefixOf s.data

/-- Core loop of Go `path.Clean` (shared by `filepath.Clean` on Unix): the
path's segments are processed left to right against a stack (held in reverse
order).  Empty and `"."` segments are dropped; `".."` pops the stack, except
that in a rooted path a `".."` at the root is dropped and in a relative path
it is kept; any other segment is pushed. -/
def cleanStack (rooted : Bool) : List String → List String → List String
  | stack, [] => stack
  | stack, s :: rest =>
    if s = "" ∨ s = "." then cleanStack rooted stack rest
    else if s = ".." then
      match stack with
      | [] => if rooted then cleanStack rooted [] rest else cleanStack rooted [".."] rest
      | t :: ts =>
        if t = ".." then cleanStack rooted (".." :: t :: ts) rest
        else cleanStack rooted ts rest
    else cleanStack rooted (s :: stack) rest

/-- Cleaned segment list of a path, in path order. -/
def cleanSegs (rooted : Bool) (segs : List String) : List String :=
  (cleanStack rooted [] segs).reverse

/-- Go `path.Clean` / Unix `filepath.Clean`, embedded via segment processing:
`""` cleans to `"."`; a rooted result is re-prefixed with `"/"`; a relative
path whose segments all cancel cleans to `"."`. -/
def pathClean (p : String) : String :=
  if p = "" then "."
  else
    let rooted := startsWithSlash p
    let out := String.intercalate "/" (cleanSegs rooted (splitSlash p))
    if rooted then "/" ++ out
    else if out = "" then "." else out

/-- Go `filepath.Join` (Unix): the elements from the first non-empty one are
joined with `"/"` and the result is cleaned; if every element is empty the
result is `""`. -/
def filepathJoin (elems : List String) : String :=
  match elems.dropWhile (fun s => s = "") with
  | [] => ""
  | rest => pathClean (String.intercalate "/" rest)

/-- Path-containment test used to state the traversal claims: `p` is the root
itself or lies strictly below it. -/
def underRoot (root p : String) : Bool :=
  p == root || strHasPfx (root ++ "/") p

/-- Path normalisation performed by `net/http.ServeMux` before routing
(`cleanPath` in the Go standard library): empty becomes `"/"`, a missing
leading slash is added, the path is cleaned, and a trailing slash is
preserved. -/
def muxCleanPath (p : String) : String :=
  if p = "" then "/"
  else
    let q := if startsWithSlash p then p else "/" ++ p
    let np := pathClean q
    if endsWithSep q ∧ np ≠ "/" then np ++ "/" else np

/-- Go `strings.TrimPrefix` as used on the upload handler's
`Referer`/`Origin` pair: drops the origin when it prefixes the referer. -/
def stripOrigin (referer origin : String) : String :=
  if strHasPfx origin referer then String.mk (referer.data.drop origin.data.length)
  else referer

/-- Unit characters indexed by the exponent in `formatBytes`
(the Go string literal indexed by `exp`). -/
def unitChars : List Char := ['k', 'M', 'G', 'T', 'P', 'E']

/-- One unit character as a string.  Go indexes the byte string directly and
would panic out of range; for `int64` inputs the exponent never exceeds 5, so
the default is unreachable on the source's domain. -/
def unitStr (e : Nat) : String := String.singleton (unitChars.getD e 'k')

/-- Fuel-driven loop of `formatBytes`: while `1000 ≤ n`, multiply `div` by
1000, increment `e` and divide `n` by 1000.  The fuel only makes the
recursion structural; `fbLoop` supplies fuel `n`, which bounds the number of
iterations, so the zero-fuel branch is never the one that stops the loop. -/
def fbGo : Nat → Nat → Nat → Nat → Nat × Nat
  | 0, div, e, _ => (div, e)
  | fuel + 1, div, e, n =>
    if 1000 ≤ n then fbGo fuel (div * 1000) (e + 1) (n / 1000) else (div, e)

/-- Loop of `formatBytes` from `main.go`: starting from `div = 1000`,
`exp = 0` and `n = b / 1000`, while `n >= 1000` multiply `div` by 1000,
increment `exp` and divide `n` by 1000.  In the source this runs on positive
`int64` values, represented here by `Nat`. -/
def fbLoop (div e n : Nat) : Nat × Nat := fbGo n div e n

/-- Rendering of `%.1f` applied to `b / div` (both positive).  Go converts to
`float64` and formats with one decimal; this embedding rounds the exact
rational `10 * b / div` to the nearest integer, ties to even, which agrees
with the float path at every magnitude the claims exercise (the quotients
there are exactly representable). -/
def fbRound (b div : Nat) : Nat :=
  let t := (10 * b) / div
  let r := (10 * b) % div
  if 2 * r > div ∨ (2 * r = div ∧ t % 2 = 1) then t + 1 else t

/-- Digit string of the one-decimal rendering: integer part, a dot, and the
single fractional digit of the rounded tenths value. -/
def fmtDiv1 (b div : Nat) : String :=
  toString (fbRound b div / 10) ++ "." ++ toString (fbRound b div % 10)

/-- `formatBytes` from `main.go`: byte counts below 1000 render as `"<n> B"`;
otherwise the loop selects `div = 1000 ^ (exp + 1)` and the result is the
one-decimal quotient followed by the unit character and `"B"`. -/
def formatBytes (b : Int) : String :=
  if b < 1000 then toString b ++ " B"
  else
    let p := fbLoop 1000 0 (b.toNat / 1000)
    fmtDiv1 b.toNat p.1 ++ " " ++ unitStr p.2 ++ "B"

/-- Index of the unit `formatBytes` selects for `b`, in the order
B, kB, MB, GB, TB, PB, EB. -/
def unitIndex (b : Int) : Nat :=
  if b < 1000 then 0 else (fbLoop 1000 0 (b.toNat / 1000)).2 + 1

/-- Unit names in increasing order. -/
def unitNames : List String := ["B", "kB", "MB", "GB", "TB", "PB", "EB"]

/-- The unit suffix `formatBytes` appends for `b`. -/
def chosenUnit (b : Int) : String :=
  if b < 1000 then "B" else unitStr (fbLoop 1000 0 (b.toNat / 1000)).2 ++ "B"

/-- Metadata of one directory entry as returned by `os.Stat` /
`ioutil.ReadDir` (`os.FileInfo`): base name, directory bit, size in bytes and
the modification time.  Go formats the time with a fixed layout; since no
claim inspects the rendered time, the formatted label itself is stored. -/
structure FileMeta where
  name : String
  isDir : Bool
  size : Int
  modTime : String
deriving DecidableEq

/-- Abstract read-only view of the file system consulted by the handlers:
`stat` embeds `os.Stat` (`none` = the path does not exist), `readDir` embeds
`ioutil.ReadDir` (`Except.error` = the read failed, carrying the error text),
`readFile` gives the bytes `http.ServeFile` streams for an existing regular
file, and `openFileOk` tells whether `os.OpenFile` succeeds at a destination
path. -/
structure FS where
  stat : String → Option FileMeta
  readDir : String → Except String (List FileMeta)
  readFile : String → String
  openFileOk : String → Bool

/-- `File` from `main.go` (one rendered listing entry).  The `Link` field is
declared in the source but never assigned in `listDir`, so it keeps Go's zero
value `""`. -/
structure File where
  link : String
  size : String
  modTime : String
  name : String
deriving DecidableEq

/-- `Dir` from `main.go`: the data handed to the listing template. -/
structure Dir where
  displayPath : String
  files : List File
deriving DecidableEq

/-- One piece of the response body: plain written text (`http.Error`,
`fmt.Fprintf` literals), the streamed bytes of a file (`http.ServeFile`), the
rendered directory listing (`t.ExecuteTemplate` on `index.html`, abstracted
as the `Dir` value it consumes), or the formatted uptime duration
(`time.Since`, in nanoseconds). -/
inductive Chunk
  | text (s : String)
  | fileContent (path content : String)
  | listing (d : Dir)
  | uptime (nanos : Int)
deriving DecidableEq

/-- One file part of a parsed multipart form (`*multipart.FileHeader`):
client-supplied name, declared size, content, and whether `fh.Open` and the
`io.Copy` from it succeed. -/
structure FilePart where
  filename : String
  size : Int
  content : String
  openOk : Bool
  copyOk : Bool
deriving DecidableEq

/-- An incoming HTTP request, reduced to the fields the handlers read:
method, URL path, the `X-Request-Id` header (Go's `Header.Get` yields `""`
when absent), `Referer`, `Origin`, and the multipart parse result of the body
(`none` when `ParseMultipartForm` fails, in which case `r.MultipartForm`
stays nil). -/
structure HttpReq where
  method : String
  path : String
  xRequestId : String
  referer : String
  origin : String
  multipart : Option (List FilePart)
deriving DecidableEq

/-- The `controller` configuration: root directory, maximum upload size and
the generated request id (`nextRequestID` is abstracted by the value it
returns for the request under consideration). -/
structure Ctrl where
  rootDir : String
  maxUploadSize : Int
  nextId : String
deriving DecidableEq

/-- The state a handler invocation acts on: the response (status code — 200
until a status is written, matching net/http's implicit 200 —, body chunks,
`Location` and `X-Request-Id` response headers), the log lines emitted so
far, the file writes performed (path and content), the file system, the
shared `healthy` value and the current time in nanoseconds. -/
structure World where
  status : Nat
  statusWritten : Bool
  body : List Chunk
  respLocation : String
  respXRequestId : String
  logs : List String
  writes : List (String × String)
  fs : FS
  healthy : Int
  now : Int

/-- `w.WriteHeader(code)`: the first written status sticks, later calls are
ignored (net/http logs a superfluous-call warning and does nothing). -/
def writeHeader (w : World) (code : Nat) : World :=
  if w.statusWritten then w else { w with status := code, statusWritten := true }

/-- Writing body chunks: an implicit `200 OK` is sent first if no status has
been written yet, then the chunks are appended to the body. -/
def writeBody (w : World) (cs : List Chunk) : World :=
  let w' := if w.statusWritten then w else { w with status := 200, statusWritten := true }
  { w' with body := w'.body ++ cs }

/-- `http.Error(w, msg, code)`: write the status, then the message and a
newline as the body. -/
def httpError (w : World) (msg : String) (code : Nat) : World :=
  writeBody (writeHeader w code) [Chunk.text (msg ++ "\n")]

/-- Appending one line to the process log (`c.logger.Println`). -/
def addLog (w : World) (line : String) : World :=
  { w with logs := w.logs ++ [line] }

/-- `http.Redirect(w, r, url, code)`: set the `Location` header and write the
status. -/
def redirect (w : World) (url : String) (code : Nat) : World :=
  { writeHeader w code with respLocation := url }

/-- Splitting a character list at slash runes, embedding
`strings.FieldsFunc(v, isSlashRune)` from net/http's `containsDotDot` guard
(`isSlashRune` accepts `'/'` and `'\\'`; `FieldsFunc` drops empty fields,
which cannot equal `".."` anyway, so keeping them is equivalent for the
membership test below). -/
def splitSlashesAux : List Char → List Char → List String
  | acc, [] => [String.mk acc.reverse]
  | acc, c :: cs =>
    if c = '/' ∨ c = '\\' then String.mk acc.reverse :: splitSlashesAux [] cs
    else splitSlashesAux (c :: acc) cs

/-- `containsDotDot` from net/http (Go >= 1.6): whether any slash-separated
field of the string is `".."` (the source's preliminary
`strings.Contains(v, "..")` test is a shortcut with the same outcome). -/
def containsDotDot (v : String) : Bool :=
  (splitSlashesAux [] v.data).contains ".."

/-- Whether a body chunk carries streamed file bytes. -/
def isFileChunk : Chunk → Bool
  | Chunk.text _ => false
  | Chunk.fileContent _ _ => true
  | Chunk.listing _ => false
  | Chunk.uptime _ => false

/-- No chunk of the body carries streamed file bytes. -/
def noFileChunks (cs : List Chunk) : Bool := cs.all fun ch => !(isFileChunk ch)

/-- `http.ServeFile(w, r, path)` on an existing regular file (Go >= 1.6, as
pinned by the repository's toolchain): if the request's URL path contains a
`..` segment it answers `400` with body `invalid URL path` and returns
without streaming; otherwise it streams the file's bytes (with an implicit
200 on the first write). -/
def serveFile (req : HttpReq) (w : World) (path : String) : World :=
  if containsDotDot req.path then httpError w "invalid URL path" 400
  else writeBody w [Chunk.fileContent path (w.fs.readFile path)]

/-- Recording a completed upload write (`os.OpenFile` + `io.Copy`). -/
def recordWrite (w : World) (path content : String) : World :=
  { w with writes := w.writes ++ [(path, content)] }

/-- Body of the per-entry loop in `controller.listDir`: a directory gets its
name suffixed with `"/"` and size label `"-"`; a regular file keeps its name
and gets `formatBytes` of its size.  `ModTime` is the formatted modification
time in both cases; `Link` is never assigned. -/
def fileEntry (m : FileMeta) : File :=
  if m.isDir then { link := "", size := "-", modTime := m.modTime, name := m.name ++ "/" }
  else { link := "", size := formatBytes m.size, modTime := m.modTime, name := m.name }

/-- `controller.listDir`: read the directory and build the listing in entry
order (the source's append loop is the map over the returned entries); a
failed read is returned as the error the caller reports. -/
def listDir (fs : FS) (root : String) : Except String Dir :=
  match fs.readDir root with
  | .error e => .error e
  | .ok files => .ok { displayPath := root, files := files.map fileEntry }

/-- `controller.index`: ignore the favicon path; join the URL path onto the
root directory; if the resolved path names an existing non-directory, serve
it — the source has no `return` here, so control always continues into
`listDir`; a listing failure is logged and reported as a 500, a successful
listing is rendered through the template (abstracted as the listing chunk;
the template is an external collaborator per the specification). -/
def index (c : Ctrl) (req : HttpReq) (w : World) : World :=
  if req.path = "/favicon.io" then w
  else
    let path := filepathJoin [c.rootDir, req.path]
    let w1 :=
      match w.fs.stat path with
      | some m => if m.isDir = false then serveFile req w path else w
      | none => w
    match listDir w1.fs path with
    | .error e => httpError (addLog w1 ("Error listing files in directory " ++ e)) e 500
    | .ok dir => writeBody w1 [Chunk.listing dir]

/-- `controller.healthz`: a zero health value answers `503` with no body;
otherwise `fmt.Fprintf` writes `uptime: <time.Since(start)>\n`, which carries
an implicit `200`.  `time.Since(time.Unix(0, h))` is `now - h` nanoseconds. -/
def healthz (_c : Ctrl) (_req : HttpReq) (w : World) : World :=
  if w.healthy = 0 then writeHeader w 503
  else writeBody w [Chunk.text "uptime: ", Chunk.uptime (w.now - w.healthy), Chunk.text "\n"]

/-- Destination path of one uploaded file:
`filepath.Join(rootDir, strings.TrimPrefix(referer, origin), filename)`. -/
def destPath (c : Ctrl) (req : HttpReq) (filename : String) : String :=
  filepathJoin [c.rootDir, stripOrigin req.referer req.origin, filename]

/-- The per-part loop of `controller.upload`, in source order: an oversized
part answers `413` and returns; a part that fails to open answers `400`; the
upload is logged; a failing `os.OpenFile` at the destination answers `500`;
a failing `io.Copy` answers `500`; otherwise the write is recorded and the
loop continues.  An exhausted part list redirects (`302 Found`) back to the
referer.  Go error texts are abstracted by descriptive messages. -/
def uploadLoop (c : Ctrl) (req : HttpReq) : World → List FilePart → Except (String × World) World
  | w, [] => .ok (redirect w req.referer 302)
  | w, fh :: rest =>
    if c.maxUploadSize < fh.size then .ok (writeHeader w 413)
    else if fh.openOk = false then
      .ok (httpError (addLog w ("Error retrieveing the file: " ++ fh.filename))
        ("open error: " ++ fh.filename) 400)
    else
      let w1 := addLog w ("Uploaded file: " ++ fh.filename)
      let dst := destPath c req fh.filename
      if w1.fs.openFileOk dst = false then
        .ok (httpError (addLog w1 ("Error creating a new file: " ++ dst))
          ("create error: " ++ dst) 500)
      else if fh.copyOk = false then
        .ok (httpError (addLog w1 ("Error copying new file " ++ dst))
          ("copy error: " ++ dst) 500)
      else uploadLoop c req (recordWrite w1 dst fh.content) rest

/-- `controller.upload`: the source discards `ParseMultipartForm`'s error, so
when the body is not a well-formed multipart form `r.MultipartForm` is nil
and the field access `r.MultipartForm.File` panics with a nil-pointer
dereference — embedded as the `Except.error` outcome; otherwise the file
parts under the `files` key are processed in order. -/
def upload (c : Ctrl) (req : HttpReq) (w : World) : Except (String × World) World :=
  match req.multipart with
  | none => .error ("runtime error: invalid memory address or nil pointer dereference", w)
  | some fhs => uploadLoop c req w fhs

/-- Outcome of a handler: a finished world, or a propagating panic together
with the world at the moment of the panic. -/
abbrev HResult := Except (String × World) World

/-- A handler, as `http.Handler.ServeHTTP` over the embedded state. -/
abbrev Handler := HttpReq → World → HResult

/-- `controller.tracing`: take the inbound `X-Request-Id` header, generate an
id if it is empty, set the response header, then invoke the wrapped
handler. -/
def tracing (c : Ctrl) (h : Handler) : Handler := fun req w =>
  let requestID := if req.xRequestId = "" then c.nextId else req.xRequestId
  h req { w with respXRequestId := requestID }

/-- The log line `controller.logging` emits: the captured request id followed
by method and path (remote address, user agent and latency are request
metadata not modelled further). -/
def logLineStr (id : String) (req : HttpReq) : String :=
  id ++ " " ++ req.method ++ " " ++ req.path

/-- `controller.logging`: invoke the wrapped handler first; the deferred
function then reads the response's `X-Request-Id` header (`"unknown"` if
empty) and appends the log line.  A deferred function also runs while a panic
unwinds, so the line is appended on the panic outcome as well. -/
def logging (h : Handler) : Handler := fun req w =>
  match h req w with
  | .ok w2 =>
    let rid := if w2.respXRequestId = "" then "unknown" else w2.respXRequestId
    .ok (addLog w2 (logLineStr rid req))
  | .error (p, w2) =>
    let rid := if w2.respXRequestId = "" then "unknown" else w2.respXRequestId
    .error (p, addLog w2 (logLineStr rid req))

/-- `middlewares.apply` from `main.go`: an empty list returns the handler,
otherwise the tail is applied to the head wrapped around the handler. -/
def middlewaresApply {H : Type} : List (H → H) → H → H
  | [], h => h
  | m :: rest, h => middlewaresApply rest (m h)

/-- The base router of `main`: `net/http.ServeMux` first normalises the path
(redirecting with `301 Moved Permanently` when normalisation changes it),
then dispatches the exact patterns `/upload` and `/healthz` and the subtree
root `/`. -/
def serveMux (c : Ctrl) : Handler := fun req w =>
  let cp := muxCleanPath req.path
  if cp ≠ req.path then .ok (redirect w cp 301)
  else if req.path = "/upload" then upload c req w
  else if req.path = "/healthz" then .ok (healthz c req w)
  else .ok (index c req w)

/-- The server handler built in `main`:
`(middlewares{c.tracing, c.logging}).apply(router)`. -/
def appHandler (c : Ctrl) : Handler :=
  middlewaresApply [tracing c, logging] (serveMux c)

/-- Log lines of a handler outcome (emitted whether or not a panic unwound). -/
def logsOf : HResult → List String
  | .ok w => w.logs
  | .error (_, w) => w.logs

/-- Response `X-Request-Id` header of a handler outcome. -/
def ridOf : HResult → String
  | .ok w => w.respXRequestId
  | .error (_, w) => w.respXRequestId

/-- Response status of a handler outcome. -/
def statusOf : HResult → Nat
  | .ok w => w.status
  | .error (_, w) => w.status

/-- Body chunks of a handler outcome. -/
def bodyOf : HResult → List Chunk
  | .ok w => w.body
  | .error (_, w) => w.body

/-- Response `Location` header of a handler outcome. -/
def locOf : HResult → String
  | .ok w => w.respLocation
  | .error (_, w) => w.respLocation

/-- A middleware that only tags the log, used to observe the order in which
`middlewares.apply` nests its wrappers. -/
def mwMark (tag : String) (h : Handler) : Handler := fun req w => h req (addLog w tag)

/-- The identity handler, a neutral base for observing middleware order. -/
def handlerId : Handler := fun _ w => .ok w

/-- A fresh per-request world over a file system: empty response, empty log,
no writes. -/
def freshWorld (fs : FS) (healthy now : Int) : World :=
  { status := 200, statusWritten := false, body := [], respLocation := ""
    respXRequestId := "", logs := [], writes := [], fs := fs
    healthy := healthy, now := now }

/-- A file system with nothing in it: every stat misses and every directory
read fails. -/
def fsEmpty : FS :=
  { stat := fun _ => none
    readDir := fun _ => .error "no such file or directory"
    readFile := fun _ => ""
    openFileOk := fun _ => true }

/-- A GET request for a path, with no tracing header, referer or body. -/
def getReq (p : String) : HttpReq :=
  { method := "GET", path := p, xRequestId := "", referer := "", origin := ""
    multipart := none }

/-- The controller configuration of the demonstrations: the default root
directory `/tmp/gosfs`, the default 16 MiB upload limit, and a sample
generated request id. -/
def cDemo : Ctrl := { rootDir := "/tmp/gosfs", maxUploadSize := 16777216, nextId := "id1" }

/-- A file system holding `/etc/passwd` as a regular file outside the served
root; directory reads fail everywhere (nothing else exists). -/
def fsPasswd : FS :=
  { stat := fun p => if p = "/etc/passwd"
      then some { name := "passwd", isDir := false, size := 31, modTime := "2020-01-01 00:00" }
      else none
    readDir := fun p => if p = "/etc/passwd"
      then .error "readdirent: not a directory"
      else .error "no such file or directory"
    readFile := fun p => if p = "/etc/passwd" then "root:x:0:0:root:/root:/bin/bash" else ""
    openFileOk := fun _ => true }

/-- A file system holding the regular file `/tmp/gosfs/a.txt` with content
`"hello"`; reading it as a directory fails as on a real file system. -/
def fsServed : FS :=
  { stat := fun p => if p = "/tmp/gosfs/a.txt"
      then some { name := "a.txt", isDir := false, size := 5, modTime := "2021-05-05 05:05" }
      else none
    readDir := fun p => if p = "/tmp/gosfs/a.txt"
      then .error "readdirent: not a directory"
      else .error "no such file or directory"
    readFile := fun p => if p = "/tmp/gosfs/a.txt" then "hello" else ""
    openFileOk := fun _ => true }

/-- The metadata of the subdirectory `sub` in the listing demonstration. -/
def subMeta : FileMeta := { name := "sub", isDir := true, size := 96, modTime := "2022-02-02 02:02" }

/-- The metadata of the 500-byte file `a.txt` in the listing demonstration. -/
def aTxtMeta : FileMeta := { name := "a.txt", isDir := false, size := 500, modTime := "2022-02-02 02:03" }

/-- A file system whose root directory `/tmp/gosfs` contains exactly the
subdirectory `sub` and the 500-byte file `a.txt`. -/
def fsListing : FS :=
  { stat := fun p => if p = "/tmp/gosfs"
      then some { name := "gosfs", isDir := true, size := 96, modTime := "2022-02-02 02:02" }
      else none
    readDir := fun p => if p = "/tmp/gosfs"
      then .ok [subMeta, aTxtMeta]
      else .error "no such file or directory"
    readFile := fun _ => ""
    openFileOk := fun _ => true }

/-- A file part within the upload limit that opens and copies cleanly. -/
def pOkPart : FilePart :=
  { filename := "ok.txt", size := 3, content := "abc", openOk := true, copyOk := true }

/-- A file part whose declared size exceeds the default 16 MiB limit by one
byte. -/
def pBigPart : FilePart :=
  { filename := "big.bin", size := 16777217, content := "x", openOk := true, copyOk := true }

/-- An upload request from the page `/sub/`: one acceptable part followed by
one oversized part. -/
def reqUpDemo : HttpReq :=
  { method := "POST", path := "/upload", xRequestId := "", referer := "http://h/sub/"
    origin := "http://h", multipart := some [pOkPart, pBigPart] }

/-- An upload request whose body failed to parse as a multipart form
(`ParseMultipartForm` errors, `r.MultipartForm` stays nil). -/
def reqNoMultipart : HttpReq :=
  { method := "POST", path := "/upload", xRequestId := "", referer := "", origin := ""
    multipart := none }

/-- Unfolding of one loop step of `formatBytes`. -/
theorem fbGo_succ (f d e n : Nat) :
    fbGo (f + 1) d e n =
      if 1000 ≤ n then fbGo f (d * 1000) (e + 1) (n / 1000) else (d, e) := rfl

/-- Below the unit threshold the loop stops at once, whatever the fuel. -/
theorem fbGo_below (f d e : Nat) {n : Nat} (h : n < 1000) : fbGo f d e n = (d, e) := by
  cases f with
  | zero => rfl
  | succ f => rw [fbGo_succ, if_neg (Nat.not_le.mpr h)]

/-- The loop never decreases the exponent accumulator. -/
theorem fbGo_exp_le (f : Nat) : ∀ d e n, e ≤ (fbGo f d e n).2 := by
  induction f with
  | zero => intro d e n; exact Nat.le_refl e
  | succ f ih =>
    intro d e n
    rw [fbGo_succ]
    by_cases h : 1000 ≤ n
    · rw [if_pos h]
      have := ih (d * 1000) (e + 1) (n / 1000)
      omega
    · rw [if_neg h]

/-- The exponent computed by the loop is monotone in the input, uniformly in
the fuel (as long as the fuel covers the input, as in `fbLoop`). -/
theorem fbGo_exp_mono (f' : Nat) :
    ∀ f d d' e a b, a ≤ b → a ≤ f → b ≤ f' →
      (fbGo f d e a).2 ≤ (fbGo f' d' e b).2 := by
  induction f' with
  | zero =>
    intro f d d' e a b hab haf hbf
    have ha0 : a = 0 := by omega
    subst ha0
    rw [fbGo_below f d e (by norm_num)]
    exact Nat.le_refl e
  | succ f' ih =>
    intro f d d' e a b hab haf hbf
    by_cases hb : 1000 ≤ b
    · rw [fbGo_succ, if_pos hb]
      by_cases ha : 1000 ≤ a
      · cases f with
        | zero => omega
        | succ g =>
          rw [fbGo_succ, if_pos ha]
          refine ih g (d * 1000) (d' * 1000) (e + 1) (a / 1000) (b / 1000)
            (Nat.div_le_div_right hab) ?_ ?_
          · have := Nat.div_lt_self (show 0 < a by omega) (show 1 < 1000 by norm_num)
            omega
          · have := Nat.div_lt_self (show 0 < b by omega) (show 1 < 1000 by norm_num)
            omega
      · rw [fbGo_below f d e (by omega)]
        have h1 := fbGo_exp_le f' (d' * 1000) (e + 1) (b / 1000)
        omega
    · rw [fbGo_below f d e (by omega), fbGo_below (f' + 1) d' e (by omega)]

/-- The exponent is bounded by the base-1000 magnitude of the input. -/
theorem fbGo_exp_bound (f : Nat) :
    ∀ k d e n, n < 1000 ^ (k + 1) → (fbGo f d e n).2 ≤ e + k := by
  induction f with
  | zero => intro k d e n _; exact Nat.le_add_right e k
  | succ f ih =>
    intro k d e n hn
    rw [fbGo_succ]
    by_cases h : 1000 ≤ n
    · rw [if_pos h]
      cases k with
      | zero => norm_num at hn; omega
      | succ k' =>
        have hd : n / 1000 < 1000 ^ (k' + 1) := by
          rw [Nat.div_lt_iff_lt_mul (by norm_num)]
          calc n < 1000 ^ (k' + 1 + 1) := hn
          _ = 1000 ^ (k' + 1) * 1000 := by rw [pow_succ]
        have := ih k' (d * 1000) (e + 1) (n / 1000) hd
        omega
    · rw [if_neg h]; exact Nat.le_add_right e k

/-- For an `int64` input at least 1000, the exponent never exceeds 5 (so the
unit indexing in the source never panics). -/
theorem fbLoop_exp_le_five (b : Int) (hb63 : b < 2 ^ 63) :
    (fbLoop 1000 0 (b.toNat / 1000)).2 ≤ 5 := by
  have h63 : (2 : Int) ^ 63 = 9223372036854775808 := by norm_num
  have hdiv : b.toNat / 1000 < 1000 ^ (5 + 1) := by
    have h6 : (1000 : Nat) ^ (5 + 1) = 1000000000000000000 := by norm_num
    omega
  have := fbGo_exp_bound (b.toNat / 1000) 5 1000 0 (b.toNat / 1000) hdiv
  exact this

/-- The unit character of an exponent at most 5 is one of k, M, G, T, P, E. -/
theorem unitStr_mem (e : Nat) (he : e ≤ 5) :
    unitStr e ∈ (["k", "M", "G", "T", "P", "E"] : List String) := by
  interval_cases e <;> decide

/-- The unit suffix of an exponent at most 5 is the successor entry of the
ordered unit-name table. -/
theorem unitStr_getD (e : Nat) (he : e ≤ 5) :
    unitStr e ++ "B" = unitNames.getD (e + 1) "B" := by
  interval_cases e <;> decide

/-- Unfolding of `formatBytes` above the threshold. -/
theorem formatBytes_ge (b : Int) (hb : 1000 ≤ b) :
    formatBytes b =
      fmtDiv1 b.toNat (fbLoop 1000 0 (b.toNat / 1000)).1 ++ " " ++
        unitStr (fbLoop 1000 0 (b.toNat / 1000)).2 ++ "B" := by
  rw [formatBytes, if_neg (by omega)]

/-- C9: the byte-size formatter is a pure function with
`format(999) = "999 B"`, `format(1000) = "1.0 kB"`,
`format(1000000) = "1.0 MB"`; every value below 1000 renders as `"<n> B"`,
and every larger `int64` value renders as a one-decimal value with a unit
drawn from k, M, G, T, P, E followed by `"B"`. -/
theorem formatBytes_renders_units :
    formatBytes 999 = "999 B" ∧ formatBytes 1000 = "1.0 kB" ∧
    formatBytes 1000000 = "1.0 MB" ∧
    (∀ b : Int, b < 1000 → formatBytes b = toString b ++ " B") ∧
    (∀ b : Int, 1000 ≤ b → b < 2 ^ 63 →
      ∃ (q r : Nat) (u : String), r < 10 ∧ u ∈ (["k", "M", "G", "T", "P", "E"] : List String) ∧
        formatBytes b = toString q ++ "." ++ toString r ++ " " ++ u ++ "B") := by
  refine ⟨by decide, by decide, by decide, ?_, ?_⟩
  · intro b hb
    rw [formatBytes, if_pos hb]
  · intro b hb hb63
    rw [formatBytes_ge b hb]
    exact ⟨fbRound b.toNat (fbLoop 1000 0 (b.toNat / 1000)).1 / 10,
      fbRound b.toNat (fbLoop 1000 0 (b.toNat / 1000)).1 % 10,
      unitStr (fbLoop 1000 0 (b.toNat / 1000)).2,
      Nat.mod_lt _ (by norm_num), unitStr_mem _ (fbLoop_exp_le_five b hb63), rfl⟩

/-- Witness for C9 at concrete inputs: 500 renders as `"500 B"` and 1500
renders as a one-decimal value with a listed unit. -/
theorem formatBytes_renders_units_w :
    formatBytes 500 = toString (500 : Int) ++ " B" ∧
    (∃ (q r : Nat) (u : String), r < 10 ∧ u ∈ (["k", "M", "G", "T", "P", "E"] : List String) ∧
      formatBytes 1500 = toString q ++ "." ++ toString r ++ " " ++ u ++ "B") :=
  ⟨formatBytes_renders_units.2.2.2.1 500 (by decide),
   formatBytes_renders_units.2.2.2.2 1500 (by decide) (by decide)⟩

/-- C10: the unit selected by the byte-size formatter is monotone
non-decreasing in the byte count, in the order B, kB, MB, GB, TB, PB, EB;
`chosenUnit` is exactly the suffix `formatBytes` appends, and `unitIndex` is
its position in the ordered unit table. -/
theorem formatBytes_unit_monotone :
    (∀ a b : Int, 0 ≤ a → a ≤ b → unitIndex a ≤ unitIndex b) ∧
    (∀ b : Int, b < 2 ^ 63 → chosenUnit b = unitNames.getD (unitIndex b) "B") ∧
    (∀ b : Int, ∃ pre, formatBytes b = pre ++ " " ++ chosenUnit b) := by
  refine ⟨?_, ?_, ?_⟩
  · intro a b ha hab
    by_cases ha1000 : a < 1000
    · rw [unitIndex, if_pos ha1000]
      exact Nat.zero_le _
    · have hb1000 : ¬ b < 1000 := by omega
      rw [unitIndex, if_neg ha1000, unitIndex, if_neg hb1000]
      have hle : a.toNat / 1000 ≤ b.toNat / 1000 :=
        Nat.div_le_div_right (Int.toNat_le_toNat hab)
      have := fbGo_exp_mono (b.toNat / 1000) (a.toNat / 1000) 1000 1000 0
        (a.toNat / 1000) (b.toNat / 1000) hle (Nat.le_refl _) (Nat.le_refl _)
      simpa [fbLoop] using Nat.succ_le_succ this
  · intro b hb63
    by_cases hb : b < 1000
    · rw [chosenUnit, if_pos hb, unitIndex, if_pos hb]
      rfl
    · rw [chosenUnit, if_neg hb, unitIndex, if_neg hb]
      exact unitStr_getD _ (fbLoop_exp_le_five b hb63)
  · intro b
    by_cases hb : b < 1000
    · refine ⟨toString b, ?_⟩
      rw [formatBytes, if_pos hb, chosenUnit, if_pos hb]
      rw [String.append_assoc]
      rfl
    · refine ⟨fmtDiv1 b.toNat (fbLoop 1000 0 (b.toNat / 1000)).1, ?_⟩
      rw [formatBytes_ge b (by omega), chosenUnit, if_neg hb]
      rw [String.append_assoc]

/-- Witness for C10 at concrete inputs: the unit index climbs from 999
through 1000 to 1000000, and the chosen unit strings agree with the
formatter's output. -/
theorem formatBytes_unit_monotone_w :
    unitIndex 999 ≤ unitIndex 1000 ∧ unitIndex 1000 ≤ unitIndex 1000000 ∧
    chosenUnit 1000000 = unitNames.getD (unitIndex 1000000) "B" ∧
    (∃ pre, formatBytes 1000000 = pre ++ " " ++ chosenUnit 1000000) :=
  ⟨formatBytes_unit_monotone.1 999 1000 (by decide) (by decide),
   formatBytes_unit_monotone.1 1000 1000000 (by decide) (by decide),
   formatBytes_unit_monotone.2.1 1000000 (by decide),
   formatBytes_unit_monotone.2.2 1000000⟩

/-- C8: for every directory read, the emitted entries are the per-entry map
of the source loop, one per child; an entry's name ends with the path
separator iff the child is a directory (real directory entries never contain
the separator, hence the hypothesis on the raw names); a directory's size
label is `"-"` and a file's size label is the byte-size formatter applied to
its size. -/
theorem listDir_entry_invariants (fs : FS) (root : String) (entries : List FileMeta)
    (hread : fs.readDir root = .ok entries)
    (hnames : ∀ m ∈ entries, endsWithSep m.name = false) :
    ∃ d : Dir, listDir fs root = .ok d ∧
      d.files = entries.map fileEntry ∧
      d.files.length = entries.length ∧
      ∀ m ∈ entries,
        (endsWithSep (fileEntry m).name = m.isDir) ∧
        (fileEntry m).size = (if m.isDir then "-" else formatBytes m.size) := by
  refine ⟨{ displayPath := root, files := entries.map fileEntry }, ?_, rfl, by simp, ?_⟩
  · rw [listDir, hread]
  · intro m hm
    constructor
    · by_cases hd : m.isDir = true
      · rw [fileEntry, if_pos hd, hd]
        show ((m.name ++ "/").data.getLast? == some '/') = true
        rw [String.data_append]
        have hslash : ("/" : String).data = ['/'] := rfl
        rw [hslash]
        simp
      · have hd' : m.isDir = false := by simpa using hd
        rw [fileEntry, if_neg hd, hd']
        exact hnames m hm
    · by_cases hd : m.isDir = true
      · rw [fileEntry, if_pos hd, if_pos hd]
      · rw [fileEntry, if_neg hd, if_neg hd]

/-- Witness for C8: the root directory holding one subdirectory `sub` and one
500-byte file `a.txt` lists exactly two entries, `sub/` with size label `"-"`
and `a.txt` with size label `"500 B"`. -/
theorem listDir_entry_invariants_w :
    (∃ d : Dir, listDir fsListing "/tmp/gosfs" = .ok d ∧
      d.files = [subMeta, aTxtMeta].map fileEntry ∧
      d.files.length = [subMeta, aTxtMeta].length ∧
      ∀ m ∈ [subMeta, aTxtMeta],
        (endsWithSep (fileEntry m).name = m.isDir) ∧
        (fileEntry m).size = (if m.isDir then "-" else formatBytes m.size)) ∧
    [subMeta, aTxtMeta].length = 2 ∧
    (fileEntry subMeta).name = "sub/" ∧ (fileEntry subMeta).size = "-" ∧
    (fileEntry aTxtMeta).name = "a.txt" ∧ (fileEntry aTxtMeta).size = "500 B" :=
  ⟨listDir_entry_invariants fsListing "/tmp/gosfs" [subMeta, aTxtMeta] rfl (by decide),
   rfl, by decide, by decide, by decide, by decide⟩

/-- C7: the health handler reads the shared health value: zero answers
`503 Service Unavailable` with an empty body, nonzero answers `200 OK` with
body `"uptime: <duration since recorded start>\n"`, and in both cases the
health value, the file system, the recorded writes and the log are
unchanged (no side effects). -/
theorem healthz_reads_health (c : Ctrl) (req : HttpReq) (w : World)
    (hb : w.body = []) (hs : w.statusWritten = false) :
    ((healthz c req w).healthy = w.healthy ∧
     (healthz c req w).fs = w.fs ∧
     (healthz c req w).writes = w.writes ∧
     (healthz c req w).logs = w.logs ∧
     (healthz c req w).respXRequestId = w.respXRequestId ∧
     (healthz c req w).now = w.now) ∧
    (w.healthy = 0 → (healthz c req w).status = 503 ∧ (healthz c req w).body = []) ∧
    (w.healthy ≠ 0 → (healthz c req w).status = 200 ∧
      (healthz c req w).body =
        [Chunk.text "uptime: ", Chunk.uptime (w.now - w.healthy), Chunk.text "\n"]) := by
  by_cases h : w.healthy = 0
  · simp [healthz, writeHeader, h, hs, hb]
  · simp [healthz, writeBody, h, hs, hb]

/-- Witness for C7: with health value 0 the probe answers 503 with empty
body; with health value 5 at time 12 it answers 200 with the uptime body. -/
theorem healthz_reads_health_w :
    ((healthz cDemo (getReq "/healthz") (freshWorld fsEmpty 0 9)).status = 503 ∧
     (healthz cDemo (getReq "/healthz") (freshWorld fsEmpty 0 9)).body = []) ∧
    ((healthz cDemo (getReq "/healthz") (freshWorld fsEmpty 5 12)).status = 200 ∧
     (healthz cDemo (getReq "/healthz") (freshWorld fsEmpty 5 12)).body =
       [Chunk.text "uptime: ", Chunk.uptime (12 - 5), Chunk.text "\n"]) :=
  ⟨(healthz_reads_health cDemo (getReq "/healthz") (freshWorld fsEmpty 0 9) rfl rfl).2.1 rfl,
   (healthz_reads_health cDemo (getReq "/healthz") (freshWorld fsEmpty 5 12) rfl rfl).2.2
     (by decide)⟩

/-- Logging leaves the file system untouched. -/
theorem addLog_fs (w : World) (l : String) : (addLog w l).fs = w.fs := rfl

/-- Processing a prefix of within-limit, cleanly-written parts and then
reaching an oversized part stops the loop with a `413` status; the state
records exactly the prefix's writes and upload log lines. -/
theorem uploadLoop_oversize (c : Ctrl) (req : HttpReq) (fh : FilePart) (post : List FilePart)
    (hfh : c.maxUploadSize < fh.size) :
    ∀ (pre : List FilePart) (w : World), w.statusWritten = false →
      (∀ p ∈ pre, p.size ≤ c.maxUploadSize ∧ p.openOk = true ∧ p.copyOk = true ∧
        w.fs.openFileOk (destPath c req p.filename) = true) →
      uploadLoop c req w (pre ++ fh :: post) =
        .ok { w with
          status := 413
          statusWritten := true
          logs := w.logs ++ pre.map (fun p => "Uploaded file: " ++ p.filename)
          writes := w.writes ++
            pre.map (fun p => (destPath c req p.filename, p.content)) } := by
  intro pre
  induction pre with
  | nil =>
    intro w hs _
    show uploadLoop c req w (fh :: post) = _
    simp [uploadLoop, hfh, writeHeader, hs]
  | cons p pre ih =>
    intro w hs hpre
    obtain ⟨hsize, hopen, hcopy, hofile⟩ := hpre p (List.mem_cons_self p pre)
    have hnotlt : ¬ c.maxUploadSize < p.size := not_lt.mpr hsize
    show uploadLoop c req w (p :: (pre ++ fh :: post)) = _
    simp only [uploadLoop, addLog_fs, hnotlt, hopen, hcopy, hofile, if_false, ite_false,
      Bool.true_eq_false]
    rw [ih (recordWrite (addLog w ("Uploaded file: " ++ p.filename))
      (destPath c req p.filename) p.content) hs
      (fun q hq => hpre q (List.mem_cons_of_mem p hq))]
    simp [addLog, recordWrite, List.append_assoc]

/-- C6: an upload request that reaches a file part whose declared size
exceeds the configured maximum (every earlier part is within the limit and
is written cleanly) answers `413 Request Entity Too Large`, writes none of
the oversized file's bytes and does not process the remaining parts: the
recorded writes are exactly those of the earlier parts. -/
theorem upload_oversize_413 (c : Ctrl) (req : HttpReq) (w : World)
    (pre post : List FilePart) (fh : FilePart)
    (hmp : req.multipart = some (pre ++ fh :: post))
    (hs : w.statusWritten = false)
    (hpre : ∀ p ∈ pre, p.size ≤ c.maxUploadSize ∧ p.openOk = true ∧ p.copyOk = true ∧
      w.fs.openFileOk (destPath c req p.filename) = true)
    (hfh : c.maxUploadSize < fh.size) :
    ∃ w' : World, upload c req w = .ok w' ∧
      w'.status = 413 ∧ w'.statusWritten = true ∧ w'.body = w.body ∧
      w'.writes = w.writes ++ pre.map (fun p => (destPath c req p.filename, p.content)) := by
  refine ⟨{ w with
      status := 413
      statusWritten := true
      logs := w.logs ++ pre.map (fun p => "Uploaded file: " ++ p.filename)
      writes := w.writes ++ pre.map (fun p => (destPath c req p.filename, p.content)) },
    ?_, rfl, rfl, rfl, rfl⟩
  simp only [upload, hmp]
  exact uploadLoop_oversize c req fh post hfh pre w hs hpre

/-- Witness for C6: an upload of one 3-byte part followed by a part one byte
over the 16 MiB limit answers 413 and records exactly the first part's
write. -/
theorem upload_oversize_413_w :
    ∃ w' : World, upload cDemo reqUpDemo (freshWorld fsEmpty 1 2) = .ok w' ∧
      w'.status = 413 ∧ w'.statusWritten = true ∧
      w'.body = (freshWorld fsEmpty 1 2).body ∧
      w'.writes = (freshWorld fsEmpty 1 2).writes ++
        [pOkPart].map (fun p => (destPath cDemo reqUpDemo p.filename, p.content)) :=
  upload_oversize_413 cDemo reqUpDemo (freshWorld fsEmpty 1 2) [pOkPart] [] pBigPart
    rfl rfl (by decide) (by decide)

@[simp] theorem writeHeader_rid (w : World) (code : Nat) :
    (writeHeader w code).respXRequestId = w.respXRequestId := by
  rw [writeHeader]; split <;> rfl

@[simp] theorem writeHeader_fs (w : World) (code : Nat) :
    (writeHeader w code).fs = w.fs := by
  rw [writeHeader]; split <;> rfl

@[simp] theorem writeBody_rid (w : World) (cs : List Chunk) :
    (writeBody w cs).respXRequestId = w.respXRequestId := by
  simp only [writeBody]; split <;> rfl

@[simp] theorem writeBody_fs (w : World) (cs : List Chunk) :
    (writeBody w cs).fs = w.fs := by
  simp only [writeBody]; split <;> rfl

@[simp] theorem httpError_rid (w : World) (msg : String) (code : Nat) :
    (httpError w msg code).respXRequestId = w.respXRequestId := by
  rw [httpError, writeBody_rid, writeHeader_rid]

@[simp] theorem httpError_fs (w : World) (msg : String) (code : Nat) :
    (httpError w msg code).fs = w.fs := by
  rw [httpError, writeBody_fs, writeHeader_fs]

@[simp] theorem addLog_rid (w : World) (l : String) :
    (addLog w l).respXRequestId = w.respXRequestId := rfl

@[simp] theorem redirect_rid (w : World) (url : String) (code : Nat) :
    (redirect w url code).respXRequestId = w.respXRequestId :=
  writeHeader_rid w code

@[simp] theorem serveFile_rid (req : HttpReq) (w : World) (p : String) :
    (serveFile req w p).respXRequestId = w.respXRequestId := by
  rw [serveFile]; split
  · exact httpError_rid w _ _
  · exact writeBody_rid w _

@[simp] theorem serveFile_fs (req : HttpReq) (w : World) (p : String) :
    (serveFile req w p).fs = w.fs := by
  rw [serveFile]; split
  · exact httpError_fs w _ _
  · exact writeBody_fs w _

@[simp] theorem recordWrite_rid (w : World) (p ct : String) :
    (recordWrite w p ct).respXRequestId = w.respXRequestId := rfl

@[simp] theorem writeHeader_body (w : World) (code : Nat) :
    (writeHeader w code).body = w.body := by
  rw [writeHeader]; split <;> rfl

@[simp] theorem writeBody_body (w : World) (cs : List Chunk) :
    (writeBody w cs).body = w.body ++ cs := by
  simp only [writeBody]; split <;> rfl

@[simp] theorem httpError_body (w : World) (msg : String) (code : Nat) :
    (httpError w msg code).body = w.body ++ [Chunk.text (msg ++ "\n")] := by
  rw [httpError, writeBody_body, writeHeader_body]

@[simp] theorem addLog_body (w : World) (l : String) :
    (addLog w l).body = w.body := rfl

/-- The health handler never touches the response request-id header. -/
theorem healthz_rid (c : Ctrl) (req : HttpReq) (w : World) :
    (healthz c req w).respXRequestId = w.respXRequestId := by
  rw [healthz]; split <;> simp

/-- The serve/list handler never touches the response request-id header. -/
theorem index_rid (c : Ctrl) (req : HttpReq) (w : World) :
    (index c req w).respXRequestId = w.respXRequestId := by
  simp only [index]
  split
  · rfl
  · cases hstat : w.fs.stat (filepathJoin [c.rootDir, req.path]) with
    | none =>
      simp only [hstat]
      cases hld : listDir w.fs (filepathJoin [c.rootDir, req.path]) with
      | error e => simp [hld]
      | ok d => simp [hld]
    | some m =>
      simp only [hstat]
      by_cases hdir : m.isDir = false
      · simp only [hdir, if_true, serveFile_fs]
        cases hld : listDir w.fs (filepathJoin [c.rootDir, req.path]) with
        | error e => simp [hld]
        | ok d => simp [hld]
      · simp only [hdir, if_false]
        cases hld : listDir w.fs (filepathJoin [c.rootDir, req.path]) with
        | error e => simp [hld]
        | ok d => simp [hld]

/-- The upload loop never touches the response request-id header. -/
theorem uploadLoop_rid (c : Ctrl) (req : HttpReq) :
    ∀ (parts : List FilePart) (w : World),
      ridOf (uploadLoop c req w parts) = w.respXRequestId := by
  intro parts
  induction parts with
  | nil => intro w; simp [uploadLoop, ridOf]
  | cons fh rest ih =>
    intro w
    simp only [uploadLoop, addLog_fs]
    by_cases h1 : c.maxUploadSize < fh.size
    · simp [h1, ridOf]
    · rw [if_neg h1]
      by_cases h2 : fh.openOk = false
      · simp [h2, ridOf]
      · rw [if_neg h2]
        by_cases h3 : w.fs.openFileOk (destPath c req fh.filename) = false
        · simp [h3, ridOf]
        · rw [if_neg h3]
          by_cases h4 : fh.copyOk = false
          · simp [h4, ridOf]
          · rw [if_neg h4, ih]
            rfl

/-- The upload handler never touches the response request-id header, on the
normal and on the panic outcome alike. -/
theorem upload_rid (c : Ctrl) (req : HttpReq) (w : World) :
    ridOf (upload c req w) = w.respXRequestId := by
  cases h : req.multipart with
  | none => simp [upload, h, ridOf]
  | some parts =>
    simp only [upload, h]
    exact uploadLoop_rid c req parts w

/-- The router and every routed handler leave the response request-id header
exactly as the request-id middleware set it. -/
theorem serveMux_rid (c : Ctrl) (req : HttpReq) (w : World) :
    ridOf (serveMux c req w) = w.respXRequestId := by
  simp only [serveMux]
  split
  · simp [ridOf]
  · split
    · exact upload_rid c req w
    · split
      · simp only [ridOf]
        exact healthz_rid c req w
      · simp only [ridOf]
        exact index_rid c req w

/-- C3 counterexample: `middlewares.apply` nests the FIRST-listed middleware
innermost, not outermost.  With two order-tagging middlewares in the
positions of request-ID and logging, the composed handler runs the
second-listed one first, so the claim that the first-listed (request-ID)
middleware is the outermost wrapper is false. -/
theorem apply_first_not_outermost :
    logsOf (middlewaresApply [mwMark "first", mwMark "second"] handlerId
      (getReq "/") (freshWorld fsEmpty 1 2)) = ["second", "first"] ∧
    logsOf (mwMark "first" (mwMark "second" handlerId)
      (getReq "/") (freshWorld fsEmpty 1 2)) = ["first", "second"] ∧
    logsOf (middlewaresApply [mwMark "first", mwMark "second"] handlerId
        (getReq "/") (freshWorld fsEmpty 1 2)) ≠
      logsOf (mwMark "first" (mwMark "second" handlerId)
        (getReq "/") (freshWorld fsEmpty 1 2)) :=
  ⟨by decide, by decide, by decide⟩

/-- C3 amended: `middlewares.apply` makes the last-listed middleware the
outermost wrapper, so the server's handler is the logging middleware wrapped
around the request-ID middleware wrapped around the router; request-ID
assignment nevertheless executes before logging captures the ID, because
logging reads the response's request-id header only after the wrapped
handler returns: the captured log line carries exactly the assigned id. -/
theorem apply_order_and_log_capture (c : Ctrl) (req : HttpReq) (w : World)
    (hn : c.nextId ≠ "") :
    appHandler c = logging (tracing c (serveMux c)) ∧
    ridOf (appHandler c req w) =
      (if req.xRequestId = "" then c.nextId else req.xRequestId) ∧
    (logsOf (appHandler c req w)).getLast? =
      some (logLineStr (if req.xRequestId = "" then c.nextId else req.xRequestId) req) := by
  have hA : (if req.xRequestId = "" then c.nextId else req.xRequestId) ≠ "" := by
    split
    · exact hn
    · assumption
  have happ : appHandler c req w =
      logging (serveMux c) req
        { w with respXRequestId := if req.xRequestId = "" then c.nextId else req.xRequestId } :=
    rfl
  have hmain :
      ridOf (appHandler c req w) =
        (if req.xRequestId = "" then c.nextId else req.xRequestId) ∧
      (logsOf (appHandler c req w)).getLast? =
        some (logLineStr (if req.xRequestId = "" then c.nextId else req.xRequestId) req) := by
    rw [happ]
    have hr := serveMux_rid c req
      { w with respXRequestId := if req.xRequestId = "" then c.nextId else req.xRequestId }
    cases hres : serveMux c req
        { w with respXRequestId := if req.xRequestId = "" then c.nextId else req.xRequestId } with
    | ok w2 =>
      rw [hres] at hr
      simp only [ridOf] at hr
      simp only [logging, hres, ridOf, logsOf, addLog, addLog_rid, hr, if_neg hA]
      exact ⟨trivial, List.getLast?_append_cons w2.logs _ []⟩
    | error pw =>
      rw [hres] at hr
      cases pw with
      | mk p w2 =>
        simp only [ridOf] at hr
        simp only [logging, hres, ridOf, logsOf, addLog, addLog_rid, hr, if_neg hA]
        exact ⟨trivial, List.getLast?_append_cons w2.logs _ []⟩
  exact ⟨rfl, hmain.1, hmain.2⟩

/-- Witness for C3 amended, at a concrete request without a tracing header:
the composed handler is logging outside request-ID outside the router, and
the emitted log line carries the generated id. -/
theorem apply_order_and_log_capture_w :
    appHandler cDemo = logging (tracing cDemo (serveMux cDemo)) ∧
    ridOf (appHandler cDemo (getReq "/healthz") (freshWorld fsEmpty 0 9)) =
      (if (getReq "/healthz").xRequestId = "" then cDemo.nextId
       else (getReq "/healthz").xRequestId) ∧
    (logsOf (appHandler cDemo (getReq "/healthz") (freshWorld fsEmpty 0 9))).getLast? =
      some (logLineStr
        (if (getReq "/healthz").xRequestId = "" then cDemo.nextId
         else (getReq "/healthz").xRequestId) (getReq "/healthz")) :=
  apply_order_and_log_capture cDemo (getReq "/healthz") (freshWorld fsEmpty 0 9) (by decide)

/-- One step of the path-cleaning stack: consuming one segment and then the
rest is the same as consuming the rest from the stack left by the one
segment. -/
theorem cleanStack_cons (r : Bool) (st : List String) (s : String) (rest : List String) :
    cleanStack r st (s :: rest) = cleanStack r (cleanStack r st [s]) rest := by
  by_cases h1 : s = "" ∨ s = "."
  · simp only [cleanStack, if_pos h1]
  · by_cases h2 : s = ".."
    · subst h2
      cases st with
      | nil => cases r <;> simp [cleanStack]
      | cons t ts => by_cases h3 : t = ".." <;> simp [cleanStack, h3]
    · simp only [cleanStack, if_neg h1, if_neg h2]

/-- The path-cleaning stack processes a concatenation of segment lists by
processing them in sequence. -/
theorem cleanStack_append (r : Bool) :
    ∀ (xs ys st : List String),
      cleanStack r st (xs ++ ys) = cleanStack r (cleanStack r st xs) ys := by
  intro xs
  induction xs with
  | nil => intro ys st; rfl
  | cons s xs ih =>
    intro ys st
    rw [List.cons_append, cleanStack_cons r st s (xs ++ ys), ih,
      cleanStack_cons r st s xs]

/-- Segments free of `..` only ever push onto the cleaning stack: the
incoming stack survives as a suffix. -/
theorem cleanStack_no_dotdot (r : Bool) :
    ∀ (ys : List String), (∀ s ∈ ys, s ≠ "..") →
      ∀ st : List String, ∃ extra, cleanStack r st ys = extra ++ st := by
  intro ys
  induction ys with
  | nil => intro _ st; exact ⟨[], rfl⟩
  | cons s ys ih =>
    intro hys st
    have hs : s ≠ ".." := hys s (List.mem_cons_self s ys)
    have hys' : ∀ t ∈ ys, t ≠ ".." := fun t ht => hys t (List.mem_cons_of_mem s ht)
    by_cases h1 : s = "" ∨ s = "."
    · rw [show cleanStack r st (s :: ys) = cleanStack r st ys by
        simp only [cleanStack, if_pos h1]]
      exact ih hys' st
    · rw [show cleanStack r st (s :: ys) = cleanStack r (s :: st) ys by
        simp only [cleanStack, if_neg h1, if_neg hs]]
      obtain ⟨extra, hex⟩ := ih hys' (s :: st)
      exact ⟨extra ++ [s], by rw [hex, List.append_assoc, List.singleton_append]⟩

/-- With a dot-dot request path, no branch of the serve/list handler ever
streams file bytes: `http.ServeFile`'s guard answers 400 instead of
streaming, and every other branch writes only error text or the rendered
listing. -/
theorem index_dotdot_no_stream (c : Ctrl) (req : HttpReq) (w : World)
    (hdd : containsDotDot req.path = true) (hb : w.body = []) :
    noFileChunks (index c req w).body = true := by
  have hfav : ¬ req.path = "/favicon.io" := by
    intro h
    rw [h] at hdd
    exact absurd hdd (by decide)
  simp only [index, if_neg hfav]
  cases hstat : w.fs.stat (filepathJoin [c.rootDir, req.path]) with
  | none =>
    simp only [hstat]
    cases hld : listDir w.fs (filepathJoin [c.rootDir, req.path]) with
    | error e => simp [hld, hb, noFileChunks, isFileChunk]
    | ok d => simp [hld, hb, noFileChunks, isFileChunk]
  | some m =>
    simp only [hstat]
    by_cases hdir : m.isDir = false
    · simp only [hdir, if_true]
      rw [serveFile, if_pos hdd]
      simp only [httpError_fs]
      cases hld : listDir w.fs (filepathJoin [c.rootDir, req.path]) with
      | error e => simp [hld, hb, noFileChunks, isFileChunk]
      | ok d => simp [hld, hb, noFileChunks, isFileChunk]
    · simp only [hdir, if_false]
      cases hld : listDir w.fs (filepathJoin [c.rootDir, req.path]) with
      | error e => simp [hld, hb, noFileChunks, isFileChunk]
      | ok d => simp [hld, hb, noFileChunks, isFileChunk]

/-- C1 amended: the handler's lexical resolution CAN produce a path outside
the root — `filepath.Join` does not contain, and the handler has no
containment check and no 404 branch — but a traversal request never obtains
file contents: the router answers a raw dot-dot path with a 301 redirect to
its normalised form and an empty body; `http.ServeFile`'s own guard (Go >=
1.6) turns any dot-dot request path that does reach the handler into a
`400 invalid URL path` response, so no branch streams file bytes; and for
the `..`-free paths the router delivers, the resolution never escapes the
root (the cleaned root segments are a prefix of the cleaned joined
segments). -/
theorem resolution_stays_under_root (rsegs psegs : List String)
    (c : Ctrl) (req : HttpReq) (w : World)
    (hp : ∀ s ∈ psegs, s ≠ "..")
    (hdd : containsDotDot req.path = true) (hb : w.body = []) :
    (∃ rest, cleanSegs true (rsegs ++ psegs) = cleanSegs true rsegs ++ rest) ∧
    noFileChunks (index c req w).body = true ∧
    statusOf (serveMux cDemo (getReq "/../../etc/passwd") (freshWorld fsPasswd 1 2)) = 301 ∧
    locOf (serveMux cDemo (getReq "/../../etc/passwd") (freshWorld fsPasswd 1 2)) =
      "/etc/passwd" ∧
    bodyOf (serveMux cDemo (getReq "/../../etc/passwd") (freshWorld fsPasswd 1 2)) = [] := by
  refine ⟨?_, index_dotdot_no_stream c req w hdd hb, by decide, by decide, by decide⟩
  rw [cleanSegs, cleanSegs, cleanStack_append]
  obtain ⟨extra, hex⟩ := cleanStack_no_dotdot true psegs hp (cleanStack true [] rsegs)
  exact ⟨extra.reverse, by rw [hex, List.reverse_append]⟩

/-- Witness for C1 amended: with root segments `tmp/gosfs`, `..`-free path
segments `etc/passwd`, and the raw traversal request against the demo file
system: the cleaned root is a prefix of the cleaned join, the handler's body
carries no file bytes, and the router answers with the 301 redirect. -/
theorem resolution_stays_under_root_w :
    (∃ rest, cleanSegs true (["tmp", "gosfs"] ++ ["etc", "passwd"]) =
      cleanSegs true ["tmp", "gosfs"] ++ rest) ∧
    noFileChunks
      (index cDemo (getReq "/../../etc/passwd") (freshWorld fsPasswd 1 2)).body = true ∧
    statusOf (serveMux cDemo (getReq "/../../etc/passwd") (freshWorld fsPasswd 1 2)) = 301 ∧
    locOf (serveMux cDemo (getReq "/../../etc/passwd") (freshWorld fsPasswd 1 2)) =
      "/etc/passwd" ∧
    bodyOf (serveMux cDemo (getReq "/../../etc/passwd") (freshWorld fsPasswd 1 2)) = [] :=
  resolution_stays_under_root ["tmp", "gosfs"] ["etc", "passwd"] cDemo
    (getReq "/../../etc/passwd") (freshWorld fsPasswd 1 2) (by decide) (by decide) rfl

/-- C1 counterexample: the joined path escapes the root — refuting that the
resolution never produces a path outside the root — and invoked directly on
the raw traversal path the handler answers `400` (from `http.ServeFile`'s
dot-dot guard) with only error text in the body, not the claimed `404`. -/
theorem index_traversal_escapes_root :
    filepathJoin ["/tmp/gosfs", "/../../etc/passwd"] = "/etc/passwd" ∧
    underRoot "/tmp/gosfs" (filepathJoin ["/tmp/gosfs", "/../../etc/passwd"]) = false ∧
    (index cDemo (getReq "/../../etc/passwd") (freshWorld fsPasswd 1 2)).status = 400 ∧
    ¬ (index cDemo (getReq "/../../etc/passwd") (freshWorld fsPasswd 1 2)).status = 404 ∧
    (index cDemo (getReq "/../../etc/passwd") (freshWorld fsPasswd 1 2)).body =
      [Chunk.text "invalid URL path\n", Chunk.text "readdirent: not a directory\n"] :=
  ⟨by decide, by decide, by decide, by decide, by decide⟩

/-- C4 amended: a request whose resolved path does not exist is answered with
`500 Internal Server Error` carrying the directory-read error — the missing
path surfaces as a listing failure, and the handler has no 404 branch. -/
theorem index_missing_path_500 (c : Ctrl) (req : HttpReq) (w : World) (e : String)
    (hfav : ¬ req.path = "/favicon.io")
    (hstat : w.fs.stat (filepathJoin [c.rootDir, req.path]) = none)
    (hread : w.fs.readDir (filepathJoin [c.rootDir, req.path]) = .error e)
    (hs : w.statusWritten = false) (hb : w.body = []) :
    (index c req w).status = 500 ∧ (index c req w).statusWritten = true ∧
    (index c req w).body = [Chunk.text (e ++ "\n")] := by
  simp only [index, if_neg hfav, hstat, listDir, hread]
  simp [httpError, writeHeader, writeBody, addLog, hs, hb]

/-- Witness for C4 amended: a GET for the nonexistent `/missing` under the
default root answers 500 with the read-error body. -/
theorem index_missing_path_500_w :
    (index cDemo (getReq "/missing") (freshWorld fsEmpty 1 2)).status = 500 ∧
    (index cDemo (getReq "/missing") (freshWorld fsEmpty 1 2)).statusWritten = true ∧
    (index cDemo (getReq "/missing") (freshWorld fsEmpty 1 2)).body =
      [Chunk.text ("no such file or directory" ++ "\n")] :=
  index_missing_path_500 cDemo (getReq "/missing") (freshWorld fsEmpty 1 2)
    "no such file or directory" (by decide) rfl rfl rfl rfl

/-- C4 counterexample: for a resolved path that does not exist the handler
answers 500, not the claimed 404. -/
theorem index_missing_path_not_404 :
    (index cDemo (getReq "/missing") (freshWorld fsEmpty 1 2)).status = 500 ∧
    ¬ (index cDemo (getReq "/missing") (freshWorld fsEmpty 1 2)).status = 404 :=
  ⟨by decide, by decide⟩

/-- C2, behaviour at the failing input: serving an existing regular file does
not return — the source lacks a `return` after `http.ServeFile` — so the
handler continues into `listDir` on the file path, whose failure appends the
directory-read error text to the already-streamed file bytes and logs a
listing error; the status stays 200 only because a status was already
written. -/
theorem index_file_serve_falls_through :
    (index cDemo (getReq "/a.txt") (freshWorld fsServed 1 2)).body =
      [Chunk.fileContent "/tmp/gosfs/a.txt" "hello",
       Chunk.text "readdirent: not a directory\n"] ∧
    (index cDemo (getReq "/a.txt") (freshWorld fsServed 1 2)).status = 200 ∧
    (index cDemo (getReq "/a.txt") (freshWorld fsServed 1 2)).logs =
      ["Error listing files in directory readdirent: not a directory"] :=
  ⟨by decide, by decide, by decide⟩

/-- C5, behaviour at the failing input: an upload request whose body did not
parse as a multipart form leaves `r.MultipartForm` nil and the handler
panics dereferencing it: no HTTP status is written and no handler log line is
emitted; the panic propagates out of the handler (the surrounding logging
middleware still emits its deferred line, and only net/http's
connection-level recovery, outside the handler, keeps the process alive). -/
theorem upload_nil_multipart_panics :
    upload cDemo reqNoMultipart (freshWorld fsEmpty 1 2) =
      .error ("runtime error: invalid memory address or nil pointer dereference",
        freshWorld fsEmpty 1 2) ∧
    (freshWorld fsEmpty 1 2).statusWritten = false ∧
    (freshWorld fsEmpty 1 2).logs = [] ∧
    (∃ pw, appHandler cDemo reqNoMultipart (freshWorld fsEmpty 1 2) = .error pw) :=
  ⟨rfl, rfl, rfl, ⟨_, rfl⟩⟩

